import Mathlib

/-!
Verification of the typed result-table decoder of `azure-kusto-python`
(`azure-kusto-data/azure/kusto/data/_models.py`).

The Python source is shallowly embedded below.  Python exceptions become an
explicit `Except PyError` result; Python dicts keyed by strings or by object
identity become association lists over a tagged key type; machine time types
become microsecond-resolution integers.  The conversion functions of the
`_converters` module are not part of the provided source tree, so they are
modelled from the specification (see the doc comments on `to_datetime` and
`to_timedelta`).
-/

set_option maxRecDepth 4000

deriving instance DecidableEq for Except

/-- A JSON string-or-null field value, as stored in a column's metadata.
`jnull` models Python `None`. -/
inductive JStr where
  | jnull
  | jstr (s : String)
deriving DecidableEq

/-- Cell values.  Raw wire values are `vnull`, `vstr`, `vint`, `vbool`.
Typed values produced by the converters are `vdatetime` (date-time part plus
microseconds, modelling Python `datetime`), `vtimespan` (signed microseconds,
modelling Python `timedelta`), `vdecimal` (modelling `decimal.Decimal` applied
to the raw value).  `vtsfloat us` models the Python float
`timedelta.total_seconds()` of a `us`-microsecond duration, and
`vtsconcat whole frac` models the Python float built by
`float(str(whole) + "." + frac)` in `_get_precise_repr`. -/
inductive Value where
  | vnull
  | vstr (s : String)
  | vint (n : Int)
  | vbool (b : Bool)
  | vdatetime (base : String) (micros : Nat)
  | vtimespan (us : Int)
  | vdecimal (raw : Value)
  | vtsfloat (us : Int)
  | vtsconcat (whole : Int) (frac : String)
deriving DecidableEq

/-- Key of the row's `_value_by_name` Python dict.  The source normally keys
by the column's name string, but the missing-type branch of
`KustoResultRow.__init__` keys by the column *object* itself; `byObj i`
stands for the identity of the column object at position `i` of the table's
column list (distinct positions are distinct objects). -/
inductive ColKey where
  | byName (s : String)
  | byObj (i : Nat)
deriving DecidableEq

/-- One column's wire metadata object.  `none` in `columnType` / `dataType`
models an absent key; `some .jnull` models a key present with JSON null. -/
structure JsonColumn where
  columnName : String
  columnType : Option JStr
  dataType : Option JStr
deriving DecidableEq

/-- One element of the wire document's `Rows` list: either a positional row
array or an embedded error object.  Per the wire grammar an error object is
`\x7b"OneApiErrors": [\x7b"error": \x7b"@message": message\x7d\x7d]\x7d`; we
carry the nested message directly. -/
inductive RawRow where
  | rowArray (cells : List Value)
  | errorObj (message : String)
deriving DecidableEq

/-- A wire table document (`json_table`). -/
structure JsonTable where
  tableName : Option String
  tableId : Option String
  tableKind : Option String
  columns : List JsonColumn
  rows : List RawRow
deriving DecidableEq

/-- Python exceptions that the decoder can raise.  `serviceError` carries the
extracted message and the full raw table document, as `KustoServiceError`
does. -/
inductive PyError where
  | indexError
  | keyError
  | attributeError
  | typeError
  | valueError
  | serviceError (message : String) (payload : JsonTable)
deriving DecidableEq

/-- The `WellKnownDataSet` enum of `_models.py`. -/
inductive WellKnownDataSet where
  | PrimaryResult
  | QueryCompletionInformation
  | TableOfContents
  | QueryProperties
deriving DecidableEq

/-- The `.value` string of a `WellKnownDataSet` member. -/
def WellKnownDataSet.value : WellKnownDataSet → String
  | .PrimaryResult => "PrimaryResult"
  | .QueryCompletionInformation => "QueryCompletionInformation"
  | .TableOfContents => "TableOfContents"
  | .QueryProperties => "QueryProperties"

/-- `WellKnownDataSet[name]`: lookup by member name (member names coincide
with member values for this enum); `none` models the `KeyError`. -/
def wellKnownOfName (s : String) : Option WellKnownDataSet :=
  if s = "PrimaryResult" then some .PrimaryResult
  else if s = "QueryCompletionInformation" then some .QueryCompletionInformation
  else if s = "TableOfContents" then some .TableOfContents
  else if s = "QueryProperties" then some .QueryProperties
  else none

/-- `KustoResultColumn`: name, declared wire type (`.jnull` models Python
`None`, which triggers the `AttributeError` branch of row decoding), ordinal. -/
structure KustoResultColumn where
  column_name : String
  column_type : JStr
  ordinal : Nat
deriving DecidableEq

/- ---------------- string helpers (Python semantics) ---------------- -/

/-- Python `str.split(sep)` for a one-character separator, over char lists:
always returns at least one (possibly empty) field. -/
def splitOnChar (sep : Char) : List Char → List (List Char)
  | [] => [[]]
  | c :: rest =>
    let r := splitOnChar sep rest
    if c = sep then [] :: r
    else
      match r with
      | [] => [[c]]
      | h :: t => (c :: h) :: t

/-- Python `s[:-n]`: drop the last `n` characters. -/
def dropRightL (l : List Char) (n : Nat) : List Char :=
  l.take (l.length - n)

/-- ASCII model of Python `str.isdigit` on a single character. -/
def isDigitC (c : Char) : Bool :=
  48 ≤ c.toNat && c.toNat ≤ 57

/-- ASCII model of Python `str.isalpha` on a single character. -/
def isAlphaC (c : Char) : Bool :=
  (65 ≤ c.toNat && c.toNat ≤ 90) || (97 ≤ c.toNat && c.toNat ≤ 122)

/-- ASCII model of Python `str.lower` on a single character. -/
def lowerChar (c : Char) : Char :=
  if 65 ≤ c.toNat ∧ c.toNat ≤ 90 then Char.ofNat (c.toNat + 32) else c

/-- ASCII model of Python `str.lower`. -/
def lowerStr (s : String) : String :=
  String.mk (s.toList.map lowerChar)

/-- Numeric value of a decimal digit character. -/
def digitVal (c : Char) : Nat :=
  c.toNat - 48

/-- Digits-to-Nat reading of a character list (used only on digit strings). -/
def digitsToNat (l : List Char) : Nat :=
  l.foldl (fun a c => a * 10 + digitVal c) 0

/-- Microseconds denoted by a fractional-seconds digit string: the first six
digits, right-padded with zeros to six places. -/
def sixFracMicros (l : List Char) : Nat :=
  digitsToNat (l.take 6 ++ List.replicate (6 - (l.take 6).length) '0')

/- ---------------- spec-modelled converters ---------------- -/

/-- Modelled from the spec: `_converters.to_datetime` (module `_converters`
is not under the provided source tree).  Per spec sections 4.1/3, it parses a
raw datetime string into a timestamp of microsecond resolution.  We model the
result as the text before the fraction dot (with a trailing alphabetic zone
or kind suffix stripped) together with the fraction read to microseconds
(truncated / zero-padded to six digits).  Non-string input is returned
unchanged (its conversion behaviour is not specified). -/
def to_datetime (v : Value) : Value :=
  match v with
  | .vstr s =>
    let l := s.toList
    let body :=
      match l.getLast? with
      | some c => if isAlphaC c then l.dropLast else l
      | none => l
    match splitOnChar '.' body with
    | [] => .vdatetime (String.mk body) 0
    | [d] => .vdatetime (String.mk d) 0
    | d :: rest => .vdatetime (String.mk d) (sixFracMicros (rest.headD []))
  | w => w

/-- Modelled from the spec: `_converters.to_timedelta` (module `_converters`
is not under the provided source tree).  Per spec sections 4.1/3, it parses a
raw timespan string of shape `[-][d.]hh:mm:ss[.fraction]` into a duration of
microsecond resolution, modelled as signed integer microseconds.  Input that
is not such a string is modelled as the zero duration. -/
def timedeltaMicros (l : List Char) : Int :=
  let neg : Bool := match l with | '-' :: _ => true | _ => false
  let body : List Char := match l with | '-' :: rest => rest | _ => l
  match splitOnChar ':' body with
  | [hh, mm, ss] =>
    let dh : Nat × Nat :=
      match splitOnChar '.' hh with
      | [d, h] => (digitsToNat d, digitsToNat h)
      | _ => (0, digitsToNat hh)
    let sf : Nat × Nat :=
      match splitOnChar '.' ss with
      | [w, f] => (digitsToNat w, sixFracMicros f)
      | _ => (digitsToNat ss, 0)
    let total : Nat :=
      ((dh.1 * 24 + dh.2) * 3600 + digitsToNat mm * 60 + sf.1) * 1000000 + sf.2
    if neg then -(total : Int) else (total : Int)
  | _ => 0

/-- See the module doc comment above `timedeltaMicros`: string input parses
to a duration; non-string input is modelled as the zero duration. -/
def to_timedelta (v : Value) : Value :=
  match v with
  | .vstr s => .vtimespan (timedeltaMicros s.toList)
  | _ => .vtimespan 0

/-- `decimal.Decimal` applied to the raw value (conversion failures of the
standard-library constructor are not modelled; no claim depends on them). -/
def to_decimal (v : Value) : Value :=
  .vdecimal v

/-- Python `abs(typed_value) == typed_value` for the values the timespan
branch can produce (a `timedelta` is compared; other shapes do not occur
there). -/
def tsNonneg : Value → Bool
  | .vtimespan n => decide (0 ≤ n)
  | _ => true

/- ---------------- precision extraction (KustoResultRow.__init__) -------- -/

/-- Line 83 of `_models.py`:
`last = value[-1] if isinstance(value, str) and value[-1].isalpha() else ""`.
On an empty string, `value[-1]` raises `IndexError` (this line is outside the
`try` block). -/
def lastOf (v : Value) : Except PyError String :=
  match v with
  | .vstr s =>
    match s.toList.getLast? with
    | some c => .ok (if isAlphaC c then String.mk [c] else "")
    | none => .error .indexError
  | _ => .ok ""

/-- `value.split(":")[2]` (the seconds field), `none` = `IndexError` /
`AttributeError`. -/
def secondsPartOf (s : String) : Option (List Char) :=
  (splitOnChar ':' s.toList)[2]?

/-- `seconds_part.split(".")[1]` (the fractional-seconds substring). -/
def fracPartOf (sec : List Char) : Option (List Char) :=
  (splitOnChar '.' sec)[1]?

/-- The candidate 7th fractional digit `seconds_fractions_part[6]` of a raw
cell value, when every step of the extraction pipeline succeeds.  `none`
covers the `AttributeError` (non-string value) and both `IndexError` cases. -/
def extractSeventh (v : Value) : Option Char :=
  match v with
  | .vstr s => (secondsPartOf s).bind fun sec => (fracPartOf sec).bind fun f => f[6]?
  | _ => none

/-- Outcome of the `try` block of `KustoResultRow.__init__` (lines 86-115)
for a non-null `datetime`/`timespan` cell: the typed value plus the local
variables (`seconds_fractions_part`, `seventh_char`, `lookback`) that survive
into the `_get_precise_repr` call, and the `_seventh_digit` entry recorded,
if any. -/
structure TryOut where
  typed : Value
  frac : Option (List Char)
  seventh : Option Char
  lookback : Option Nat
  entry : Option (String × Int)
deriving DecidableEq

/-- The `try` block of `KustoResultRow.__init__` with its
`except (IndexError, AttributeError)` fallback.  `ct` is the lowercased wire
type, guaranteed `"datetime"` or `"timespan"` by the caller (so the inner
`raise TypeError` of the source is unreachable and the type dichotomy is an
`if`). -/
def temporalTry (ct : String) (name : String) (v : Value) (last : String) : TryOut :=
  let conv := if ct = "datetime" then to_datetime else to_timedelta
  match v with
  | .vstr s =>
    match secondsPartOf s with
    | none => ⟨conv v, none, none, none, none⟩
    | some sec =>
      match fracPartOf sec with
      | none => ⟨conv v, none, none, none, none⟩
      | some frac =>
        match frac[6]? with
        | none => ⟨conv v, some frac, none, none, none⟩
        | some c =>
          if isDigitC c then
            let tick := digitVal c
            let lookback := if last = "" then 1 else 2
            let typed := conv (.vstr (String.mk (dropRightL s.toList lookback) ++ last))
            let entry : Option (String × Int) :=
              if tick ≠ 0 then
                some (name,
                  if ct = "datetime" then (tick : Int)
                  else if tsNonneg typed then (tick : Int) else -(tick : Int))
              else none
            ⟨typed, some frac, some c, some lookback, entry⟩
          else
            ⟨conv v, some frac, some c, none, none⟩
  | _ => ⟨conv v, none, none, none, none⟩

/-- `_get_precise_repr` of `_models.py` (lines 20-41).  `raw` is the raw cell
value, `typed` the converted value, and the remaining arguments are the
keyword arguments of the call site.  Errors model the exceptions the Python
code would raise (slicing a non-string or `None` lookback: `TypeError`;
`.total_seconds()` on a non-`timedelta`: `AttributeError`; unknown type:
`ValueError`); on the paths reachable from the decoder these do not occur. -/
def get_precise_repr (t : String) (raw typed : Value) (frac : Option (List Char))
    (last : String) (lookback : Option Nat) (seventh : Option Char) :
    Except PyError Value :=
  if t = "datetime" then
    match seventh with
    | some c =>
      if isDigitC c then
        match lookback, raw with
        | some lb, .vstr s =>
          .ok (.vstr (String.mk (dropRightL s.toList lb) ++ String.mk [c] ++ "00" ++ last))
        | _, _ => .error .typeError
      else .ok raw
    | none => .ok raw
  else if t = "timespan" then
    match frac with
    | some f =>
      if f = [] then
        match typed with
        | .vtimespan us => .ok (.vtsfloat us)
        | _ => .error .attributeError
      else
        match typed with
        | .vtimespan us => .ok (.vtsconcat (Int.tdiv us 1000000) (String.mk f))
        | _ => .error .attributeError
    | none =>
      match typed with
      | .vtimespan us => .ok (.vtsfloat us)
      | _ => .error .attributeError
  else .error .valueError

/- ---------------- row decoding ---------------- -/

/-- Effect of decoding one cell: the value appended to `_value_by_index`, the
key and value written into `_value_by_name`, the values appended to
`_hidden_values`, and the `_seventh_digit` entry recorded, if any. -/
structure CellOut where
  typed : Value
  key : ColKey
  hidden : List Value
  seventh : Option (String × Int)
deriving DecidableEq

/-- One iteration of the cell loop of `KustoResultRow.__init__` (lines
63-141).  `keep` is the module-level `keep_high_precision_values` flag, `i`
the cell index (identifying the column object for the missing-type branch). -/
def decodeCell (keep : Bool) (i : Nat) (col : KustoResultColumn) (v : Value) :
    Except PyError CellOut :=
  match col.column_type with
  | .jnull =>
    .ok ⟨v, .byObj i, if keep then [v] else [], none⟩
  | .jstr ctRaw =>
    let ct := lowerStr ctRaw
    if ct = "datetime" ∨ ct = "timespan" then
      if v = .vnull then
        .ok ⟨.vnull, .byName col.column_name, if keep then [.vnull] else [], none⟩
      else
        match lastOf v with
        | .error e => .error e
        | .ok last =>
          let r := temporalTry ct col.column_name v last
          if keep then
            match get_precise_repr ct v r.typed r.frac last r.lookback r.seventh with
            | .error e => .error e
            | .ok hv => .ok ⟨r.typed, .byName col.column_name, [hv], r.entry⟩
          else
            .ok ⟨r.typed, .byName col.column_name, [], r.entry⟩
    else if ct = "decimal" then
      .ok ⟨to_decimal v, .byName col.column_name, if keep then [v] else [], none⟩
    else
      .ok ⟨v, .byName col.column_name, if keep then [v] else [], none⟩

/-- Python dict assignment `d[k] = v` over an insertion-ordered association
list: overwrite in place if the key exists, else append. -/
def dictInsert {κ : Type} [DecidableEq κ] {α : Type} (d : List (κ × α)) (k : κ) (v : α) :
    List (κ × α) :=
  if d.any (fun p => decide (p.1 = k)) then
    d.map (fun p => if p.1 = k then (k, v) else p)
  else d ++ [(k, v)]

/-- `KustoResultRow`: the four containers filled by `__init__`. -/
structure KustoResultRow where
  value_by_name : List (ColKey × Value)
  value_by_index : List Value
  hidden_values : List Value
  seventh_digit : List (String × Int)
deriving DecidableEq

/-- Apply one cell's effects to the row under construction. -/
def accAdd (acc : KustoResultRow) (out : CellOut) : KustoResultRow :=
  { value_by_name := dictInsert acc.value_by_name out.key out.typed
    value_by_index := acc.value_by_index ++ [out.typed]
    hidden_values := acc.hidden_values ++ out.hidden
    seventh_digit :=
      match out.seventh with
      | some nt => dictInsert acc.seventh_digit nt.1 nt.2
      | none => acc.seventh_digit }

/-- The cell loop, over the (column, value) pairs with their index. -/
def initGo (keep : Bool) : Nat → List (KustoResultColumn × Value) → KustoResultRow →
    Except PyError KustoResultRow
  | _, [], acc => .ok acc
  | i, (col, v) :: rest, acc =>
    match decodeCell keep i col v with
    | .error e => .error e
    | .ok out => initGo keep (i + 1) rest (accAdd acc out)

/-- `KustoResultRow.__init__`: iterate `enumerate(row)`, reading
`columns[i]`.  A row longer than the column list raises `IndexError`; a
shorter row simply stops early (`zip` truncates exactly as the enumeration
does). -/
def KustoResultRow.init (keep : Bool) (cols : List KustoResultColumn) (row : List Value) :
    Except PyError KustoResultRow :=
  if cols.length < row.length then .error .indexError
  else initGo keep 0 (cols.zip row) ⟨[], [], [], []⟩

/-- `KustoResultRow.columns_count` (= `len(self._value_by_name)`), also the
row's `__len__`. -/
def KustoResultRow.columns_count (r : KustoResultRow) : Nat :=
  r.value_by_name.length

/-- `row[name]` for a string key; `none` models the `KeyError`. -/
def KustoResultRow.getByName (r : KustoResultRow) (s : String) : Option Value :=
  (r.value_by_name.find? (fun p => decide (p.1 = ColKey.byName s))).map (fun p => p.2)

/- ---------------- column and table construction ---------------- -/

/-- Python truthiness of a JSON string-or-null value (empty string and null
are falsy). -/
def truthyJ : JStr → Bool
  | .jnull => false
  | .jstr s => decide (s ≠ "")

/-- `KustoResultColumn.__init__`:
`self.column_type = json_column.get("ColumnType") or json_column["DataType"]`.
When `ColumnType` is absent or falsy and `DataType` is absent, the index
raises `KeyError`. -/
def KustoResultColumn.ofJson (j : JsonColumn) (ordinal : Nat) :
    Except PyError KustoResultColumn :=
  let ct := j.columnType.getD .jnull
  if truthyJ ct then .ok ⟨j.columnName, ct, ordinal⟩
  else
    match j.dataType with
    | none => .error .keyError
    | some d => .ok ⟨j.columnName, d, ordinal⟩

/-- Build the column list with ordinals from `enumerate`. -/
def colsOfJson : List JsonColumn → Nat → Except PyError (List KustoResultColumn)
  | [], _ => .ok []
  | j :: rest, i =>
    match KustoResultColumn.ofJson j i with
    | .error e => .error e
    | .ok c =>
      match colsOfJson rest (i + 1) with
      | .error e => .error e
      | .ok cs => .ok (c :: cs)

/-- Is this `Rows` element a structured object (`isinstance(row, dict)`)? -/
def isDictRow : RawRow → Bool
  | .errorObj _ => true
  | .rowArray _ => false

/-- The nested `@message` of the first embedded error object, if any
(`[row for row in Rows if isinstance(row, dict)][0][...]["@message"]`). -/
def firstErrorMsg : List RawRow → Option String
  | [] => none
  | .errorObj m :: _ => some m
  | .rowArray _ :: rest => firstErrorMsg rest

/-- Decode every row (reached only when no embedded error object exists, so
the `errorObj` case is unreachable; it is mapped to a `TypeError` as Python
iteration over a dict would misbehave). -/
def rowsDecode (keep : Bool) (cols : List KustoResultColumn) :
    List RawRow → Except PyError (List KustoResultRow)
  | [] => .ok []
  | .errorObj _ :: _ => .error .typeError
  | .rowArray cells :: rest =>
    match KustoResultRow.init keep cols cells with
    | .error e => .error e
    | .ok r =>
      match rowsDecode keep cols rest with
      | .error e => .error e
      | .ok rs => .ok (r :: rs)

/-- `KustoResultTable`. -/
structure KustoResultTable where
  table_name : Option String
  table_id : Option String
  table_kind : Option WellKnownDataSet
  columns : List KustoResultColumn
  rows : List KustoResultRow
deriving DecidableEq

/-- `KustoResultTable.__init__` (lines 188-198), in source order: parse
`TableKind` (a present but unrecognized kind raises `KeyError`), build the
columns, scan `Rows` for embedded error objects and raise `KustoServiceError`
with the first object's nested message and the whole document, then decode
every row. -/
def KustoResultTable.ofJson (keep : Bool) (j : JsonTable) :
    Except PyError KustoResultTable :=
  let kindE : Except PyError (Option WellKnownDataSet) :=
    match j.tableKind with
    | none => .ok none
    | some s =>
      match wellKnownOfName s with
      | some k => .ok (some k)
      | none => .error .keyError
  match kindE with
  | .error e => .error e
  | .ok kind =>
    match colsOfJson j.columns 0 with
    | .error e => .error e
    | .ok cols =>
      match firstErrorMsg j.rows with
      | some m => .error (.serviceError m j)
      | none =>
        match rowsDecode keep cols j.rows with
        | .error e => .error e
        | .ok rows => .ok ⟨j.tableName, j.tableId, kind, cols, rows⟩

/-- A value of the dict returned by `KustoResultTable.to_dict`: the `kind`
slot holds Python `None` or a `WellKnownDataSet` member (the source stores
the enum member itself, not a string); `pystr` exists to express what a
string in that slot would be. -/
inductive PyObj where
  | pynone
  | pystr (s : String)
  | pyenum (k : WellKnownDataSet)
deriving DecidableEq

/-- The dict built by `KustoResultTable.to_dict`:
`\x7b"name": ..., "kind": ..., "data": [r.to_dict() for r in self]\x7d`,
where each row's `to_dict` is its `_value_by_name`. -/
structure TableDict where
  name : Option String
  kind : PyObj
  data : List (List (ColKey × Value))
deriving DecidableEq

/-- `KustoResultTable.to_dict`. -/
def KustoResultTable.to_dict (t : KustoResultTable) : TableDict :=
  { name := t.table_name
    kind := match t.table_kind with | some k => .pyenum k | none => .pynone
    data := t.rows.map (fun r => r.value_by_name) }

/-- `KustoResultTable.__bool__` (= `any(self.columns)`; each column object is
truthy, so this is non-emptiness of the column list). -/
def tableBool (t : KustoResultTable) : Bool :=
  t.columns.any (fun _ => true)

/- ---------------- __str__ and the json.dumps model ---------------- -/

/-- JSON string literal with the escapes relevant here. -/
def jsonStringLit (s : String) : String :=
  "\"" ++ String.join (s.toList.map (fun c =>
    if c = '"' then "\\\"" else if c = '\\' then "\\\\" else String.mk [c])) ++ "\""

/-- Serialization of a dict key by `json.dumps`: a string key works, a
generic object key (a `KustoResultColumn` stored by the missing-type branch)
raises `TypeError`. -/
def jsonKey : ColKey → Except PyError String
  | .byName s => .ok (jsonStringLit s)
  | .byObj _ => .error .typeError

/-- Serialization of a cell value by `json.dumps`: null, strings, numbers and
booleans serialize; `datetime`, `timedelta` and `Decimal` objects raise
`TypeError`.  The two float shapes (only ever stored among hidden values,
which `to_dict` does not expose) serialize as numbers. -/
def jsonVal : Value → Except PyError String
  | .vnull => .ok "null"
  | .vstr s => .ok (jsonStringLit s)
  | .vint n => .ok (toString n)
  | .vbool b => .ok (if b then "true" else "false")
  | .vdatetime _ _ => .error .typeError
  | .vtimespan _ => .error .typeError
  | .vdecimal _ => .error .typeError
  | .vtsfloat us => .ok (toString us)
  | .vtsconcat w f => .ok (toString w ++ "." ++ f)

/-- Serialize the entries of one row dict. -/
def entriesJson : List (ColKey × Value) → Except PyError String
  | [] => .ok ""
  | (k, v) :: rest =>
    match jsonKey k with
    | .error e => .error e
    | .ok ks =>
      match jsonVal v with
      | .error e => .error e
      | .ok vs =>
        match entriesJson rest with
        | .error e => .error e
        | .ok rs => .ok (ks ++ ": " ++ vs ++ (if rest.isEmpty then "" else ", ") ++ rs)

/-- Serialize the `data` list of row dicts. -/
def rowsJson : List (List (ColKey × Value)) → Except PyError String
  | [] => .ok ""
  | d :: rest =>
    match entriesJson d with
    | .error e => .error e
    | .ok ds =>
      match rowsJson rest with
      | .error e => .error e
      | .ok rs => .ok ("\x7b" ++ ds ++ "\x7d" ++ (if rest.isEmpty then "" else ", ") ++ rs)

/-- `json.dumps(None)` / `json.dumps` of an optional string. -/
def optStrJson : Option String → String
  | none => "null"
  | some s => jsonStringLit s

/-- `KustoResultTable.__str__` (lines 227-231): take `to_dict`, replace the
`kind` slot by `kind.value` (raising `AttributeError` when the kind is
`None`), then `json.dumps` the dict. -/
def strTable (t : KustoResultTable) : Except PyError String :=
  let d := t.to_dict
  match d.kind with
  | .pyenum k =>
    match rowsJson d.data with
    | .error e => .error e
    | .ok ds =>
      .ok ("\x7b\"name\": " ++ optStrJson d.name ++ ", \"kind\": "
        ++ jsonStringLit (WellKnownDataSet.value k) ++ ", \"data\": [" ++ ds ++ "]\x7d")
  | .pynone => .error .attributeError
  | .pystr _ => .error .attributeError

/-- Boolean success of an `Except` result. -/
def exOk {ε α : Type} : Except ε α → Bool
  | .ok _ => true
  | .error _ => false

/-- Every key and value in every row dict of the table is JSON-serializable. -/
def serializableTable (t : KustoResultTable) : Bool :=
  t.rows.all (fun r => r.value_by_name.all (fun p => exOk (jsonKey p.1) && exOk (jsonVal p.2)))

/- ---------------- shared helper lemmas ---------------- -/

/-- A column whose `column_type` is Python `None` hits the `AttributeError`
branch: the raw value passes through, keyed by the column object. -/
theorem decodeCell_jnull (keep : Bool) (i : Nat) (col : KustoResultColumn) (v : Value)
    (h : col.column_type = .jnull) :
    decodeCell keep i col v = .ok ⟨v, .byObj i, if keep then [v] else [], none⟩ := by
  unfold decodeCell
  rw [h]

/-- The modelled `to_timedelta` always yields a duration on string input. -/
theorem to_timedelta_vstr (s : String) : ∃ n, to_timedelta (.vstr s) = .vtimespan n :=
  ⟨timedeltaMicros s.toList, rfl⟩

/- ---------------- C1 ---------------- -/

/-- C1 (amended): decoding the datetime cell
`\"2021-01-01T00:00:00.1234567\"` (no suffix, high-precision mode on) yields
a typed value equal to parsing `\"2021-01-01T00:00:00.123456\"`, a
`_seventh_digit` entry of `7` for that column, and a side value equal to the
original raw string with `\"00\"` inserted after the 7th digit, i.e.
`\"2021-01-01T00:00:00.123456700\"` (not `\"...12345600\"` as the claim
states). -/
theorem datetime_seventh_digit_example_decode :
    KustoResultRow.init true [⟨"t", .jstr "datetime", 0⟩]
        [.vstr "2021-01-01T00:00:00.1234567"]
      = .ok ⟨[(.byName "t", to_datetime (.vstr "2021-01-01T00:00:00.123456"))],
             [to_datetime (.vstr "2021-01-01T00:00:00.123456")],
             [.vstr "2021-01-01T00:00:00.123456700"],
             [("t", 7)]⟩ := by
  decide

/-- C1 counterexample: the side value is not the claimed
`\"2021-01-01T00:00:00.12345600\"`. -/
theorem datetime_seventh_digit_side_value_cex :
    (KustoResultRow.init true [⟨"t", .jstr "datetime", 0⟩]
        [.vstr "2021-01-01T00:00:00.1234567"]).map (fun r => r.hidden_values)
      ≠ .ok [.vstr "2021-01-01T00:00:00.12345600"] := by
  decide

/- ---------------- C5 ---------------- -/

/-- C5 (amended): a column whose `ColumnType` key is absent and whose
`DataType` key is present with JSON null constructs without raising, gets a
`None` type, and decodes every cell as opaque pass-through. -/
theorem null_datatype_column_passthrough (j : JsonColumn) (i : Nat)
    (hct : j.columnType = none) (hdt : j.dataType = some .jnull) :
    KustoResultColumn.ofJson j i = .ok ⟨j.columnName, .jnull, i⟩ ∧
    ∀ keep v, decodeCell keep i ⟨j.columnName, .jnull, i⟩ v
      = .ok ⟨v, .byObj i, if keep then [v] else [], none⟩ := by
  constructor
  · simp [KustoResultColumn.ofJson, hct, hdt, truthyJ]
  · intro keep v
    exact decodeCell_jnull keep i _ v rfl

/-- C5 witness. -/
theorem null_datatype_column_passthrough_witness :
    KustoResultColumn.ofJson ⟨"a", none, some .jnull⟩ 0 = .ok ⟨"a", .jnull, 0⟩ ∧
    ∀ keep v, decodeCell keep 0 ⟨"a", .jnull, 0⟩ v
      = .ok ⟨v, .byObj 0, if keep then [v] else [], none⟩ :=
  null_datatype_column_passthrough ⟨"a", none, some .jnull⟩ 0 rfl rfl

/-- C5 counterexample: with both `ColumnType` and `DataType` absent, column
construction raises `KeyError` (the claim says it must not raise). -/
theorem missing_both_type_keys_cex :
    KustoResultColumn.ofJson ⟨"a", none, none⟩ 0 = .error .keyError := by
  decide

/- ---------------- C8 ---------------- -/

/-- C8 (amended): for a cell whose column descriptor lacks a usable type
attribute (declared type is null), the raw value is stored unconverted in the
position-indexed slot and the side-value slot (when high-precision mode is
on), but in the name-indexed mapping it is keyed by the column *object*, not
by the column's name. -/
theorem missing_type_stores_under_object_key (keep : Bool) (i : Nat)
    (col : KustoResultColumn) (v : Value) (h : col.column_type = .jnull) :
    decodeCell keep i col v = .ok ⟨v, .byObj i, if keep then [v] else [], none⟩ :=
  decodeCell_jnull keep i col v h

/-- C8 witness. -/
theorem missing_type_stores_under_object_key_witness :
    decodeCell true 1 ⟨"a", .jnull, 1⟩ (.vstr "x")
      = .ok ⟨.vstr "x", .byObj 1, [.vstr "x"], none⟩ :=
  missing_type_stores_under_object_key true 1 ⟨"a", .jnull, 1⟩ (.vstr "x") rfl

/-- C8 counterexample: after decoding such a row, looking the value up by the
column's name fails (`KeyError`), contrary to the claim. -/
theorem missing_type_name_lookup_cex :
    (KustoResultRow.init true [⟨"a", .jnull, 0⟩] [.vstr "x"]).map
        (fun r => r.getByName "a")
      = .ok none ∧
    (KustoResultRow.init true [⟨"a", .jnull, 0⟩] [.vstr "x"]).map
        (fun r => r.getByName "a")
      ≠ .ok (some (.vstr "x")) := by
  constructor <;> decide

/- ---------------- C10 ---------------- -/

/-- C10: a table's boolean value is true exactly when it has at least one
column; the decoded rows have no effect on it. -/
theorem table_truthiness_columns_only (t : KustoResultTable) :
    (tableBool t = true ↔ t.columns.length ≠ 0) ∧
    ∀ rows2, tableBool { t with rows := rows2 } = tableBool t := by
  constructor
  · cases h : t.columns <;> simp [tableBool, h]
  · intro rows2
    simp [tableBool]

/- ---------------- C2 ---------------- -/

/-- The table-kind field parses (absent, or a recognized enum member name). -/
def kindOk : Option String → Bool
  | none => true
  | some s => (wellKnownOfName s).isSome

/-- One column's metadata yields a column object without raising. -/
def colOk (j : JsonColumn) : Bool :=
  truthyJ (j.columnType.getD .jnull) || j.dataType.isSome

/-- Helper: well-formed column metadata constructs without raising. -/
theorem colsOfJson_ok (l : List JsonColumn) (hl : l.all colOk = true) :
    ∀ i, ∃ cs, colsOfJson l i = .ok cs := by
  induction l with
  | nil => intro i; exact ⟨[], rfl⟩
  | cons j rest ih =>
    intro i
    rw [List.all_cons, Bool.and_eq_true] at hl
    obtain ⟨cs, hcs⟩ := ih hl.2 (i + 1)
    have hj := hl.1
    unfold colOk at hj
    rcases ht : truthyJ (j.columnType.getD .jnull) with _ | _
    · rw [ht] at hj
      simp only [Bool.false_or, Option.isSome_iff_exists] at hj
      obtain ⟨d, hd⟩ := hj
      exact ⟨⟨j.columnName, d, i⟩ :: cs, by
        simp [colsOfJson, KustoResultColumn.ofJson, ht, hd, hcs]⟩
    · exact ⟨⟨j.columnName, j.columnType.getD .jnull, i⟩ :: cs, by
        simp [colsOfJson, KustoResultColumn.ofJson, ht, hcs]⟩

/-- C2 (amended): for a wire table document whose kind parses and whose
columns construct, an embedded error object anywhere in `Rows` — even the
last element, after arbitrarily many valid rows — aborts construction with a
`KustoServiceError` carrying the first embedded object's nested `@message`
and the full raw document; no row of the table is decoded (construction
yields no table). -/
theorem embedded_error_object_raises_service_error (keep : Bool) (j : JsonTable)
    (m : String) (hk : kindOk j.tableKind = true) (hc : j.columns.all colOk = true)
    (he : firstErrorMsg j.rows = some m) :
    KustoResultTable.ofJson keep j = .error (.serviceError m j) := by
  unfold KustoResultTable.ofJson
  obtain ⟨cs, hcs⟩ := colsOfJson_ok j.columns hc 0
  cases htk : j.tableKind with
  | none =>
    simp only [hcs, he]
  | some s =>
    rw [htk] at hk
    unfold kindOk at hk
    rw [Option.isSome_iff_exists] at hk
    obtain ⟨k, hkk⟩ := hk
    simp only [hkk, hcs, he]

/-- C2 witness: a document with one valid row followed by an embedded error
object aborts with the service error even though the preceding row decodes. -/
theorem embedded_error_object_raises_service_error_witness :
    KustoResultTable.ofJson true
        ⟨some "T", none, some "PrimaryResult",
         [⟨"a", some (.jstr "string"), none⟩],
         [.rowArray [.vstr "x"], .errorObj "boom"]⟩
      = .error (.serviceError "boom"
          ⟨some "T", none, some "PrimaryResult",
           [⟨"a", some (.jstr "string"), none⟩],
           [.rowArray [.vstr "x"], .errorObj "boom"]⟩) :=
  embedded_error_object_raises_service_error true _ "boom" (by decide) (by decide) (by decide)

/-- C2 counterexample: with an unrecognized `TableKind` and an embedded error
object, construction raises `KeyError`, not the claimed `ServiceError`. -/
theorem embedded_error_object_cex :
    KustoResultTable.ofJson true ⟨none, none, some "NotARealKind", [], [.errorObj "boom"]⟩
      = .error .keyError ∧
    KustoResultTable.ofJson true ⟨none, none, some "NotARealKind", [], [.errorObj "boom"]⟩
      ≠ .error (.serviceError "boom"
          ⟨none, none, some "NotARealKind", [], [.errorObj "boom"]⟩) := by
  constructor <;> decide

/- ---------------- C6 ---------------- -/

/-- Helper: enum lookup inverts `.value`. -/
theorem wellKnownOfName_value (s : String) (k : WellKnownDataSet)
    (h : wellKnownOfName s = some k) : WellKnownDataSet.value k = s := by
  unfold wellKnownOfName at h
  split_ifs at h with h1 h2 h3 h4
  · injection h with h5; subst h5; subst h1; rfl
  · injection h with h5; subst h5; subst h2; rfl
  · injection h with h5; subst h5; subst h3; rfl
  · injection h with h5; subst h5; subst h4; rfl

/-- C6 (amended): for a table built from a document whose `TableKind` is a
recognized member name, `to_dict` stores the *enum member* in the `kind`
slot (not the string); the member's `.value` equals the exact original wire
string. -/
theorem to_dict_kind_enum_member (keep : Bool) (j : JsonTable) (t : KustoResultTable)
    (s : String) (k : WellKnownDataSet) (hok : KustoResultTable.ofJson keep j = .ok t)
    (hks : j.tableKind = some s) (hwk : wellKnownOfName s = some k) :
    t.to_dict.kind = .pyenum k ∧ WellKnownDataSet.value k = s := by
  refine ⟨?_, wellKnownOfName_value s k hwk⟩
  unfold KustoResultTable.ofJson at hok
  simp only [hks, hwk] at hok
  cases hcs : colsOfJson j.columns 0 with
  | error e => simp [hcs] at hok
  | ok cols =>
    simp only [hcs] at hok
    cases hfe : firstErrorMsg j.rows with
    | some m => simp [hfe] at hok
    | none =>
      simp only [hfe] at hok
      cases hrd : rowsDecode keep cols j.rows with
      | error e => simp [hrd] at hok
      | ok rows =>
        simp only [hrd] at hok
        cases hok
        simp [KustoResultTable.to_dict]

/-- C6 witness. -/
theorem to_dict_kind_enum_member_witness :
    (KustoResultTable.ofJson true ⟨none, none, some "PrimaryResult", [], []⟩
        = .ok ⟨none, none, some .PrimaryResult, [], []⟩) ∧
    (KustoResultTable.to_dict ⟨none, none, some .PrimaryResult, [], []⟩).kind
        = .pyenum .PrimaryResult ∧
    WellKnownDataSet.value .PrimaryResult = "PrimaryResult" :=
  ⟨by decide,
   to_dict_kind_enum_member true ⟨none, none, some "PrimaryResult", [], []⟩
     ⟨none, none, some .PrimaryResult, [], []⟩ "PrimaryResult" .PrimaryResult
     (by decide) rfl (by decide)⟩

/-- C6 counterexample: the `kind` slot of `to_dict` holds the enum member,
not the claimed string value. -/
theorem to_dict_kind_not_string_cex :
    (KustoResultTable.ofJson true ⟨none, none, some "PrimaryResult", [], []⟩).map
        (fun t => t.to_dict.kind)
      = .ok (.pyenum .PrimaryResult) ∧
    (KustoResultTable.ofJson true ⟨none, none, some "PrimaryResult", [], []⟩).map
        (fun t => t.to_dict.kind)
      ≠ .ok (.pystr "PrimaryResult") := by
  constructor <;> decide

/- ---------------- C9 ---------------- -/

/-- Helper: an `Except` that is `exOk` is an `.ok`. -/
theorem exOk_exists {ε α : Type} (e : Except ε α) (h : exOk e = true) :
    ∃ a, e = .ok a := by
  cases e with
  | ok a => exact ⟨a, rfl⟩
  | error e => simp [exOk] at h

/-- Helper: a row dict of serializable keys and values serializes. -/
theorem entriesJson_ok (l : List (ColKey × Value))
    (h : l.all (fun p => exOk (jsonKey p.1) && exOk (jsonVal p.2)) = true) :
    exOk (entriesJson l) = true := by
  induction l with
  | nil => rfl
  | cons p rest ih =>
    rw [List.all_cons, Bool.and_eq_true, Bool.and_eq_true] at h
    obtain ⟨⟨hk, hv⟩, hrest⟩ := h
    obtain ⟨ks, hks⟩ := exOk_exists _ hk
    obtain ⟨vs, hvs⟩ := exOk_exists _ hv
    obtain ⟨rs, hrs⟩ := exOk_exists _ (ih hrest)
    simp only [entriesJson, hks, hvs, hrs]
    rfl

/-- Helper: a data list of serializable row dicts serializes. -/
theorem rowsJson_ok (ds : List (List (ColKey × Value)))
    (h : ds.all (fun d => d.all (fun p => exOk (jsonKey p.1) && exOk (jsonVal p.2))) = true) :
    exOk (rowsJson ds) = true := by
  induction ds with
  | nil => rfl
  | cons d rest ih =>
    rw [List.all_cons, Bool.and_eq_true] at h
    obtain ⟨es, hes⟩ := exOk_exists _ (entriesJson_ok d h.1)
    obtain ⟨rs, hrs⟩ := exOk_exists _ (ih h.2)
    simp only [rowsJson, hes, hrs]
    rfl

/-- C9 (amended): the string rendering of a successfully constructed table is
deterministic and does not raise, provided the table's kind is present and
every decoded name-indexed entry is JSON-serializable; a table constructed
from a document that omitted `TableKind` makes `str(table)` raise instead
(see the counterexample). -/
theorem str_table_ok_with_kind (keep : Bool) (j : JsonTable) (t : KustoResultTable)
    (k : WellKnownDataSet) (_hok : KustoResultTable.ofJson keep j = .ok t)
    (hk : t.table_kind = some k) (hser : serializableTable t = true) :
    exOk (strTable t) = true := by
  unfold serializableTable at hser
  have hall : (t.rows.map (fun r => r.value_by_name)).all
      (fun d => d.all (fun p => exOk (jsonKey p.1) && exOk (jsonVal p.2))) = true := by
    simpa [List.all_map, Function.comp] using hser
  obtain ⟨ds, hds⟩ := exOk_exists _ (rowsJson_ok _ hall)
  unfold strTable KustoResultTable.to_dict
  simp only [hk, hds]
  rfl

/-- C9 witness. -/
theorem str_table_ok_with_kind_witness :
    exOk (strTable ⟨some "T", none, some .PrimaryResult,
        [⟨"a", .jstr "string", 0⟩],
        [⟨[(.byName "a", .vstr "x")], [.vstr "x"], [.vstr "x"], []⟩]⟩) = true :=
  str_table_ok_with_kind true
    ⟨some "T", none, some "PrimaryResult", [⟨"a", some (.jstr "string"), none⟩],
     [.rowArray [.vstr "x"]]⟩
    ⟨some "T", none, some .PrimaryResult, [⟨"a", .jstr "string", 0⟩],
     [⟨[(.byName "a", .vstr "x")], [.vstr "x"], [.vstr "x"], []⟩]⟩
    .PrimaryResult (by decide) rfl (by decide)

/-- C9 counterexample: a table successfully constructed from a document that
omitted `TableKind` raises `AttributeError` in its string rendering
(`None.value`), contrary to the claim. -/
theorem str_table_missing_kind_cex :
    KustoResultTable.ofJson true ⟨none, none, none, [], []⟩
      = .ok ⟨none, none, none, [], []⟩ ∧
    strTable ⟨none, none, none, [], []⟩ = .error .attributeError := by
  constructor <;> decide

/- ---------------- C7 ---------------- -/

/-- Helper: a non-empty string has a last character. -/
theorem toList_ne_nil (s : String) (h : s ≠ "") : s.toList ≠ [] := by
  intro hl
  apply h
  cases s with
  | mk data =>
    simp only [String.toList] at hl
    rw [hl]

/-- Helper: line 83 of the source succeeds on every value except the empty
string. -/
theorem lastOf_ok (v : Value) (hne : ∀ s, v = .vstr s → s ≠ "") :
    ∃ l, lastOf v = .ok l := by
  cases v with
  | vstr s =>
    cases hgl : s.toList.getLast? with
    | some c =>
      refine ⟨if isAlphaC c then String.mk [c] else "", ?_⟩
      simp only [lastOf, String.toList]
      simp only [String.toList] at hgl
      rw [hgl]
    | none =>
      exact absurd (List.getLast?_eq_none_iff.mp hgl) (toList_ne_nil s (hne s rfl))
  | vnull => exact ⟨"", rfl⟩
  | vint n => exact ⟨"", rfl⟩
  | vbool b => exact ⟨"", rfl⟩
  | vdatetime b m => exact ⟨"", rfl⟩
  | vtimespan us => exact ⟨"", rfl⟩
  | vdecimal r => exact ⟨"", rfl⟩
  | vtsfloat us => exact ⟨"", rfl⟩
  | vtsconcat w f => exact ⟨"", rfl⟩

/-- Helper: the modelled `to_timedelta` always yields a duration. -/
theorem to_timedelta_any (v : Value) : ∃ n, to_timedelta v = .vtimespan n := by
  cases v <;> exact ⟨_, rfl⟩

/-- Helper: when the extraction pipeline fails (caught `IndexError` /
`AttributeError`), the `try` block falls back to converting the full raw
value and records nothing. -/
theorem temporalTry_fail (ct name : String) (v : Value) (last : String)
    (h : extractSeventh v = none) :
    ∃ fr, temporalTry ct name v last =
      ⟨(if ct = "datetime" then to_datetime else to_timedelta) v, fr, none, none, none⟩ := by
  cases v with
  | vstr s =>
    simp only [extractSeventh] at h
    cases hsp : secondsPartOf s with
    | none => exact ⟨none, by simp [temporalTry, hsp]⟩
    | some sec =>
      rw [hsp, Option.some_bind] at h
      cases hfp : fracPartOf sec with
      | none => exact ⟨none, by simp [temporalTry, hsp, hfp]⟩
      | some frac =>
        rw [hfp, Option.some_bind] at h
        exact ⟨some frac, by simp [temporalTry, hsp, hfp, h]⟩
  | vnull => exact ⟨none, rfl⟩
  | vint n => exact ⟨none, rfl⟩
  | vbool b => exact ⟨none, rfl⟩
  | vdatetime b m => exact ⟨none, rfl⟩
  | vtimespan us => exact ⟨none, rfl⟩
  | vdecimal r => exact ⟨none, rfl⟩
  | vtsfloat us => exact ⟨none, rfl⟩
  | vtsconcat w f => exact ⟨none, rfl⟩

/-- C7: any split/index/attribute failure inside the precision-extraction
steps (splitting on `:` and `.`, indexing the 7th fractional character) is
caught inside the row decoder: the cell falls back to converting the full raw
value with the normal type converter, and the failure does not propagate (the
cell decodes successfully). -/
theorem extraction_failure_falls_back (keep : Bool) (i : Nat)
    (col : KustoResultColumn) (ct0 : String) (v : Value)
    (hct : col.column_type = .jstr ct0)
    (htemp : lowerStr ct0 = "datetime" ∨ lowerStr ct0 = "timespan")
    (hnn : v ≠ .vnull) (hne : ∀ s, v = .vstr s → s ≠ "")
    (hfail : extractSeventh v = none) :
    (decodeCell keep i col v).map (fun o => o.typed)
      = .ok ((if lowerStr ct0 = "datetime" then to_datetime else to_timedelta) v) := by
  obtain ⟨cname, ctype, ord⟩ := col
  simp only at hct
  subst hct
  obtain ⟨last, hlast⟩ := lastOf_ok v hne
  obtain ⟨fr, htt⟩ := temporalTry_fail (lowerStr ct0) cname v last hfail
  obtain ⟨n, htd⟩ := to_timedelta_any v
  rcases htemp with h | h
  · rw [h] at htt ⊢
    cases keep <;>
      simp [decodeCell, h, hnn, hlast, htt, get_precise_repr, Except.map]
  · rw [h] at htt ⊢
    rcases fr with _ | f
    · cases keep <;>
        simp [decodeCell, h, hnn, hlast, htt, htd, get_precise_repr, Except.map]
    · by_cases hf : f = [] <;> cases keep <;>
        simp [decodeCell, h, hnn, hlast, htt, htd, hf, get_precise_repr, Except.map]


/- ---------------- C4 ---------------- -/

/-- Helper: the `try` block when the 7th fractional character exists and is
a digit: truncate (lookback 2 with a trailing alphabetic suffix, else 1),
convert, and record the (timespan-signed) digit when non-zero. -/
theorem temporalTry_digit (ct name s last : String) (sec frac : List Char) (c : Char)
    (hsp : secondsPartOf s = some sec) (hfp : fracPartOf sec = some frac)
    (h6 : frac[6]? = some c) (hd : isDigitC c = true) :
    temporalTry ct name (.vstr s) last =
      ⟨(if ct = "datetime" then to_datetime else to_timedelta)
          (.vstr (String.mk (dropRightL s.toList (if last = "" then 1 else 2)) ++ last)),
        some frac, some c, some (if last = "" then 1 else 2),
        if digitVal c ≠ 0 then
          some (name,
            if ct = "datetime" then (digitVal c : Int)
            else if tsNonneg ((if ct = "datetime" then to_datetime else to_timedelta)
                (.vstr (String.mk (dropRightL s.toList (if last = "" then 1 else 2)) ++ last)))
              then (digitVal c : Int) else -(digitVal c : Int))
        else none⟩ := by
  simp [temporalTry, hsp, hfp, h6, hd]

/-- Helper: a digit character has value at most 9. -/
theorem digitVal_le_nine (c : Char) (hd : isDigitC c = true) : digitVal c ≤ 9 := by
  unfold isDigitC at hd
  rw [Bool.and_eq_true, decide_eq_true_iff, decide_eq_true_iff] at hd
  unfold digitVal
  omega

/-- C4: for a datetime/timespan cell whose raw string carries a 7th
fractional digit, a `_seventh_digit` entry is recorded iff the digit is
non-zero; for datetime the stored value is the digit itself (positive), for
timespan the digit negated exactly when the truncated duration is negative;
every stored value lies in [-9, 9]. -/
theorem seventh_digit_recording_rule (keep : Bool) (i : Nat)
    (col : KustoResultColumn) (ct0 : String) (s : String) (c : Char) (out : CellOut)
    (hct : col.column_type = .jstr ct0)
    (htemp : lowerStr ct0 = "datetime" ∨ lowerStr ct0 = "timespan")
    (hx : extractSeventh (.vstr s) = some c)
    (hd : isDigitC c = true)
    (hok : decodeCell keep i col (.vstr s) = .ok out) :
    (out.seventh = none ↔ digitVal c = 0) ∧
    ∀ nm t, out.seventh = some (nm, t) →
      nm = col.column_name ∧ -9 ≤ t ∧ t ≤ 9 ∧
      (lowerStr ct0 = "datetime" → t = (digitVal c : Int)) ∧
      (lowerStr ct0 = "timespan" →
        t = if tsNonneg out.typed then (digitVal c : Int) else -(digitVal c : Int)) := by
  obtain ⟨cname, ctype, ord⟩ := col
  simp only at hct
  subst hct
  simp only [extractSeventh] at hx
  cases hsp : secondsPartOf s with
  | none => rw [hsp] at hx; cases hx
  | some sec =>
  rw [hsp, Option.some_bind] at hx
  cases hfp : fracPartOf sec with
  | none => rw [hfp] at hx; cases hx
  | some frac =>
  rw [hfp, Option.some_bind] at hx
  have hsne : s ≠ "" := by
    intro he
    have h0 : secondsPartOf "" = none := by decide
    rw [he, h0] at hsp
    cases hsp
  have hfne : frac ≠ [] := by
    intro he
    rw [he] at hx
    cases hx
  obtain ⟨last, hlast⟩ := lastOf_ok (.vstr s)
    (fun s2 hs2 => by injection hs2 with hh; rw [← hh]; exact hsne)
  have hdv9 := digitVal_le_nine c hd
  have htt := temporalTry_digit (lowerStr ct0) cname s last sec frac c hsp hfp hx hd
  rcases htemp with h | h
  · rw [h] at htt
    have hgp : get_precise_repr "datetime" (.vstr s)
        (to_datetime (.vstr (String.mk (dropRightL s.toList (if last = "" then 1 else 2)) ++ last)))
        (some frac) last (some (if last = "" then 1 else 2)) (some c)
        = .ok (.vstr (String.mk (dropRightL s.toList (if last = "" then 1 else 2))
            ++ String.mk [c] ++ "00" ++ last)) := by
      simp [get_precise_repr, hd]
    simp only [String.toList] at htt hgp
    cases keep <;> simp [decodeCell, h, hlast, htt, hgp] at hok <;> subst hok <;>
    · constructor
      · by_cases hz : digitVal c = 0 <;> simp [hz]
      · intro nm t hnt
        by_cases hz : digitVal c = 0
        · simp [hz] at hnt
        · simp [hz] at hnt
          obtain ⟨h1, h2⟩ := hnt
          refine ⟨h1.symm, ?_, ?_, fun _ => h2.symm, fun hts => ?_⟩
          · rw [← h2]; omega
          · rw [← h2]; omega
          · rw [h] at hts; exact absurd hts (by decide)
  · rw [h] at htt
    obtain ⟨n, hn⟩ := to_timedelta_vstr
      (String.mk (dropRightL s.toList (if last = "" then 1 else 2)) ++ last)
    have hgp : get_precise_repr "timespan" (.vstr s) (.vtimespan n)
        (some frac) last (some (if last = "" then 1 else 2)) (some c)
        = .ok (.vtsconcat (Int.tdiv n 1000000) (String.mk frac)) := by
      simp [get_precise_repr, hfne]
    simp only [String.toList] at htt hgp hn
    cases keep <;> simp [decodeCell, h, hlast, htt, hn, hgp] at hok <;> subst hok <;>
    · constructor
      · by_cases hz : digitVal c = 0 <;> simp [hz]
      · intro nm t hnt
        by_cases hz : digitVal c = 0
        · simp [hz] at hnt
        · simp [hz] at hnt
          obtain ⟨h1, h2⟩ := hnt
          refine ⟨h1.symm, ?_, ?_, fun hts => ?_, fun _ => ?_⟩
          · rw [← h2]; split <;> omega
          · rw [← h2]; split <;> omega
          · rw [h] at hts; exact absurd hts (by decide)
          · rw [← h2]

/-- C4 witness: the timespan cell `\"-00:00:00.0000015\"` truncates to a
negative one-microsecond duration and records `-5`. -/
theorem seventh_digit_recording_rule_witness :
    ((some ("d", (-5 : Int)) : Option (String × Int)) = none ↔ digitVal '5' = 0) ∧
    ∀ nm t, (some ("d", (-5 : Int)) : Option (String × Int)) = some (nm, t) →
      nm = "d" ∧ -9 ≤ t ∧ t ≤ 9 ∧
      (lowerStr "timespan" = "datetime" → t = (digitVal '5' : Int)) ∧
      (lowerStr "timespan" = "timespan" →
        t = if tsNonneg (Value.vtimespan (-1)) then (digitVal '5' : Int)
            else -(digitVal '5' : Int)) :=
  seventh_digit_recording_rule true 0 ⟨"d", .jstr "timespan", 0⟩ "timespan"
    "-00:00:00.0000015" '5'
    ⟨.vtimespan (-1), .byName "d", [.vtsconcat 0 "0000015"], some ("d", -5)⟩
    rfl (Or.inr (by decide)) (by decide) (by decide) (by decide)

/-- C7 witness: a datetime raw string with no fractional part falls back to
full-string conversion. -/
theorem extraction_failure_falls_back_witness :
    (decodeCell true 0 ⟨"t", .jstr "datetime", 0⟩ (.vstr "2021-01-01")).map
        (fun o => o.typed)
      = .ok (to_datetime (.vstr "2021-01-01")) :=
  extraction_failure_falls_back true 0 ⟨"t", .jstr "datetime", 0⟩ "datetime"
    (.vstr "2021-01-01") rfl (Or.inl (by decide)) (by decide)
    (fun s hs => by injection hs with hh; rw [← hh]; decide) (by decide)

/- ---------------- C3 ---------------- -/

/-- The `_value_by_name` key that decoding a cell of column `col` at
position `i` produces. -/
def cellKey (i : Nat) (col : KustoResultColumn) : ColKey :=
  match col.column_type with
  | .jnull => .byObj i
  | .jstr _ => .byName col.column_name

/-- The `_value_by_name` keys produced by a run of cells starting at
position `i`. -/
def cellKeysFrom (i : Nat) : List (KustoResultColumn × Value) → List ColKey
  | [] => []
  | (col, _) :: rest => cellKey i col :: cellKeysFrom (i + 1) rest

/-- Helper: every successful cell decode keys its name-map entry by
`cellKey`. -/
theorem decodeCell_key (keep : Bool) (i : Nat) (col : KustoResultColumn) (v : Value)
    (out : CellOut) (h : decodeCell keep i col v = .ok out) : out.key = cellKey i col := by
  cases hct : col.column_type with
  | jnull =>
    rw [decodeCell_jnull keep i col v hct] at h
    injection h with h2
    rw [← h2]
    simp [cellKey, hct]
  | jstr ct0 =>
    obtain ⟨cname, ctype, ord⟩ := col
    simp only at hct
    subst hct
    simp only [decodeCell] at h
    repeat' split at h
    all_goals try cases h
    all_goals simp [cellKey]

/-- Helper: inserting a fresh key appends. -/
theorem dictInsert_fresh {κ : Type} [DecidableEq κ] {α : Type}
    (d : List (κ × α)) (k : κ) (v : α) (h : k ∉ d.map Prod.fst) :
    dictInsert d k v = d ++ [(k, v)] := by
  unfold dictInsert
  rw [if_neg]
  simp only [List.any_eq_true, decide_eq_true_iff]
  rintro ⟨p, hp, he⟩
  exact h (he ▸ List.mem_map_of_mem Prod.fst hp)

/-- Helper: the length of the key run equals the number of cells. -/
theorem cellKeysFrom_length : ∀ (rest : List (KustoResultColumn × Value)) (i : Nat),
    (cellKeysFrom i rest).length = rest.length := by
  intro rest
  induction rest with
  | nil => intro i; rfl
  | cons p rest ih =>
    intro i
    obtain ⟨col, v⟩ := p
    simp [cellKeysFrom, ih (i + 1)]

/-- Helper: shape of any key in a key run. -/
theorem mem_cellKeysFrom (k : ColKey) :
    ∀ (rest : List (KustoResultColumn × Value)) (i : Nat), k ∈ cellKeysFrom i rest →
    (∃ nm, k = .byName nm ∧ nm ∈ rest.map (fun p => p.1.column_name)) ∨
    (∃ j, i ≤ j ∧ k = .byObj j) := by
  intro rest
  induction rest with
  | nil => intro i h; cases h
  | cons p rest ih =>
    intro i h
    obtain ⟨col, v⟩ := p
    rw [cellKeysFrom, List.mem_cons] at h
    rcases h with h | h
    · cases hct : col.column_type with
      | jnull =>
        refine Or.inr ⟨i, le_refl i, ?_⟩
        rw [h]
        simp [cellKey, hct]
      | jstr ct0 =>
        refine Or.inl ⟨col.column_name, ?_, by simp⟩
        rw [h]
        simp [cellKey, hct]
    · rcases ih (i + 1) h with ⟨nm, hk, hm⟩ | ⟨j, hij, hk⟩
      · exact Or.inl ⟨nm, hk, by simp; right; simpa using hm⟩
      · exact Or.inr ⟨j, by omega, hk⟩

/-- Helper: pairwise-distinct column names give pairwise-distinct keys. -/
theorem cellKeysFrom_nodup : ∀ (rest : List (KustoResultColumn × Value)) (i : Nat),
    (rest.map (fun p => p.1.column_name)).Nodup → (cellKeysFrom i rest).Nodup := by
  intro rest
  induction rest with
  | nil => intro i _; exact List.nodup_nil
  | cons p rest ih =>
    intro i hnd
    obtain ⟨col, v⟩ := p
    rw [List.map_cons, List.nodup_cons] at hnd
    rw [cellKeysFrom, List.nodup_cons]
    refine ⟨?_, ih (i + 1) hnd.2⟩
    intro hmem
    rcases mem_cellKeysFrom _ _ _ hmem with ⟨nm, hk, hm⟩ | ⟨j, hij, hk⟩
    · cases hct : col.column_type with
      | jnull => simp [cellKey, hct] at hk
      | jstr ct0 =>
        simp [cellKey, hct] at hk
        rw [← hk] at hm
        exact hnd.1 hm
    · cases hct : col.column_type with
      | jnull =>
        simp [cellKey, hct] at hk
        omega
      | jstr ct0 => simp [cellKey, hct] at hk

/-- Helper: the cell loop appends one position slot per cell and, when all
produced keys are fresh and pairwise distinct, appends exactly the key run to
the name map. -/
theorem initGo_shape (keep : Bool) :
    ∀ (rest : List (KustoResultColumn × Value)) (i : Nat) (acc r : KustoResultRow),
    initGo keep i rest acc = .ok r →
    (acc.value_by_name.map Prod.fst ++ cellKeysFrom i rest).Nodup →
    r.value_by_index.length = acc.value_by_index.length + rest.length ∧
    r.value_by_name.map Prod.fst = acc.value_by_name.map Prod.fst ++ cellKeysFrom i rest := by
  intro rest
  induction rest with
  | nil =>
    intro i acc r h hnd
    cases h
    simp [cellKeysFrom]
  | cons p rest ih =>
    intro i acc r h hnd
    obtain ⟨col, v⟩ := p
    simp only [initGo] at h
    cases hdc : decodeCell keep i col v with
    | error e => rw [hdc] at h; cases h
    | ok out =>
      rw [hdc] at h
      have hkey := decodeCell_key keep i col v out hdc
      rw [cellKeysFrom] at hnd
      have hfresh : cellKey i col ∉ acc.value_by_name.map Prod.fst := by
        intro hmem
        exact List.disjoint_of_nodup_append hnd hmem
          (List.mem_cons_self (cellKey i col) (cellKeysFrom (i + 1) rest))
      have hkeys2 : (accAdd acc out).value_by_name.map Prod.fst
          = acc.value_by_name.map Prod.fst ++ [cellKey i col] := by
        have hdi := dictInsert_fresh acc.value_by_name (cellKey i col) out.typed hfresh
        simp [accAdd, hkey, hdi]
      have hnd2 : ((accAdd acc out).value_by_name.map Prod.fst
          ++ cellKeysFrom (i + 1) rest).Nodup := by
        rw [hkeys2, List.append_assoc]
        rw [List.append_cons] at hnd
        rw [List.append_assoc] at hnd
        exact hnd
      obtain ⟨h1, h2⟩ := ih (i + 1) (accAdd acc out) r h hnd2
      constructor
      · rw [h1]
        simp [accAdd]
        omega
      · rw [h2, hkeys2, cellKeysFrom, List.append_assoc]
        rfl

/-- C3 (amended): for a well-formed decoded row (one raw value per column)
over pairwise-distinct column names, the position-indexed sequence has length
equal to the column count, the name-indexed mapping has pairwise-distinct
keys and exactly one entry per column (hence per distinct column name), and
the row's public length equals the column count.  (With duplicate column
names the public length drops to the number of distinct names — see the
counterexample.) -/
theorem row_shape_invariant (keep : Bool) (cols : List KustoResultColumn)
    (row : List Value) (r : KustoResultRow)
    (hlen : row.length = cols.length)
    (hnodup : (cols.map KustoResultColumn.column_name).Nodup)
    (hok : KustoResultRow.init keep cols row = .ok r) :
    r.value_by_index.length = cols.length ∧
    (r.value_by_name.map Prod.fst).Nodup ∧
    r.value_by_name.length = cols.length ∧
    r.columns_count = cols.length := by
  unfold KustoResultRow.init at hok
  rw [if_neg (by omega)] at hok
  have hzlen : (cols.zip row).length = cols.length := by
    rw [List.length_zip]
    omega
  have hznames : (cols.zip row).map (fun p => p.1.column_name)
      = cols.map KustoResultColumn.column_name := by
    have hfst : (cols.zip row).map Prod.fst = cols :=
      List.map_fst_zip cols row (by omega)
    calc (cols.zip row).map (fun p => p.1.column_name)
        = ((cols.zip row).map Prod.fst).map KustoResultColumn.column_name := by
          rw [List.map_map]
          rfl
      _ = cols.map KustoResultColumn.column_name := by rw [hfst]
  have hknd : (cellKeysFrom 0 (cols.zip row)).Nodup :=
    cellKeysFrom_nodup _ 0 (by rw [hznames]; exact hnodup)
  obtain ⟨h1, h2⟩ := initGo_shape keep (cols.zip row) 0 ⟨[], [], [], []⟩ r hok
    (by simpa using hknd)
  have hkeys : r.value_by_name.map Prod.fst = cellKeysFrom 0 (cols.zip row) := by
    simpa using h2
  have hklen : r.value_by_name.length = cols.length := by
    have := congrArg List.length hkeys
    rw [List.length_map, cellKeysFrom_length, hzlen] at this
    exact this
  refine ⟨?_, by rw [hkeys]; exact hknd, hklen, hklen⟩
  simpa [hzlen] using h1

/-- C3 witness: two distinctly-named columns (one with a null declared type)
decode into a row with two position slots, two distinct name-map keys, and
public length two. -/
theorem row_shape_invariant_witness :
    (KustoResultRow.mk
        [(.byName "a", .vstr "x"), (.byObj 1, .vint 5)]
        [.vstr "x", .vint 5] [.vstr "x", .vint 5] []).value_by_index.length = 2 ∧
    ((KustoResultRow.mk
        [(.byName "a", .vstr "x"), (.byObj 1, .vint 5)]
        [.vstr "x", .vint 5] [.vstr "x", .vint 5] []).value_by_name.map Prod.fst).Nodup ∧
    (KustoResultRow.mk
        [(.byName "a", .vstr "x"), (.byObj 1, .vint 5)]
        [.vstr "x", .vint 5] [.vstr "x", .vint 5] []).value_by_name.length = 2 ∧
    (KustoResultRow.mk
        [(.byName "a", .vstr "x"), (.byObj 1, .vint 5)]
        [.vstr "x", .vint 5] [.vstr "x", .vint 5] []).columns_count = 2 :=
  row_shape_invariant true
    [⟨"a", .jstr "string", 0⟩, ⟨"b", .jnull, 1⟩]
    [.vstr "x", .vint 5]
    ⟨[(.byName "a", .vstr "x"), (.byObj 1, .vint 5)],
     [.vstr "x", .vint 5], [.vstr "x", .vint 5], []⟩
    (by decide) (by decide) (by decide)

/-- C3 counterexample: with two columns that share the name `\"a\"`, the
decoded row's public length is 1, not the column count 2. -/
theorem row_shape_cex :
    (KustoResultRow.init true
        [⟨"a", .jstr "string", 0⟩, ⟨"a", .jstr "string", 1⟩]
        [.vstr "x", .vstr "y"]).map (fun r => r.columns_count) = .ok 1 ∧
    (KustoResultRow.init true
        [⟨"a", .jstr "string", 0⟩, ⟨"a", .jstr "string", 1⟩]
        [.vstr "x", .vstr "y"]).map (fun r => r.columns_count) ≠ .ok 2 := by
  constructor <;> decide
